import Mathlib

/-!
Verification of the Report Lifecycle & Access-Controlled Storage subsystem of
the AI-Investment-Research-Agent repository.

The embedding below is translated from:
* `src/unnamed/part_000` / `src/database/schema.sql` — the `reports` table
  (column defaults for `created_at` / `expires_at`), the
  `cleanup_expired_reports()` SQL function, and the `user_report_history` view;
* `src/frontend/app/reports/page.tsx` — `filteredReports`, `toggleSelectAll`,
  `deleteSelectedReports`;
* the backend FastAPI handlers (access guard, format resolver) are not part of
  the sources; the two definitions that need them are modelled from the spec
  and are marked as such in their doc comments.

Timestamps are modelled as natural numbers (seconds since an epoch); Postgres
`CURRENT_TIMESTAMP` is stable within one statement, so both column defaults of
a single INSERT see the same value `now`.
-/

/-- A row of the `reports` table (`src/unnamed/part_000`, CREATE TABLE reports):
id, user_id, session_id, ticker, company_name, report_type ('pdf' or 'latex'),
filename, file_content (BYTEA), file_size, created_at, expires_at. -/
structure Report where
  id : String
  userId : String
  sessionId : String
  ticker : String
  companyName : String
  reportType : String
  filename : String
  fileContent : List Nat
  fileSize : Nat
  createdAt : Nat
  expiresAt : Nat
deriving DecidableEq, Repr

/-- A row of `analysis_sessions` (`src/database/schema.sql`), restricted to the
columns read by the `user_report_history` view. -/
structure AnalysisSession where
  id : String
  userId : String
  ticker : String
  companyName : String
  analysisStatus : String
deriving DecidableEq, Repr

/-- A row of `analysis_results` (`src/database/schema.sql`), restricted to the
columns read by the `user_report_history` view.  `overall_score` is
DECIMAL(5,2); it is opaque metadata here, modelled as a natural number of
hundredths. -/
structure AnalysisResult where
  id : String
  sessionId : String
  overallScore : Nat
  recommendationAction : String
  modelUsed : String
deriving DecidableEq, Repr

/-- The three tables touched by the report-management SQL. -/
structure ReportsDB where
  reports : List Report
  sessions : List AnalysisSession
  results : List AnalysisResult
deriving DecidableEq, Repr

/-- The retention window of the schema defaults: INTERVAL '5 days', in
seconds. -/
def retentionWindowSecs : Nat := 5 * 24 * 60 * 60

/-- Creation of a report row with the schema's column defaults
(`src/unnamed/part_000` lines 15-16): `created_at DEFAULT CURRENT_TIMESTAMP`,
`expires_at DEFAULT (CURRENT_TIMESTAMP + INTERVAL '5 days')`; both defaults of
one INSERT see the same statement timestamp `now`. -/
def createReport (now : Nat) (rid uid sid tk cn rt fn : String)
    (content : List Nat) : Report :=
  { id := rid, userId := uid, sessionId := sid, ticker := tk,
    companyName := cn, reportType := rt, filename := fn,
    fileContent := content, fileSize := content.length,
    createdAt := now, expiresAt := now + retentionWindowSecs }

/-- `cleanup_expired_reports()` (`src/unnamed/part_000` lines 31-40):
`DELETE FROM reports WHERE expires_at < CURRENT_TIMESTAMP` followed by
`GET DIAGNOSTICS deleted_count = ROW_COUNT; RETURN deleted_count`.
Returns the row count of the DELETE together with the surviving store. -/
def cleanupExpiredReports (now : Nat) (db : ReportsDB) : Nat × ReportsDB :=
  let kept := db.reports.filter (fun r => !decide (r.expiresAt < now))
  (db.reports.length - kept.length, { db with reports := kept })

/-- Insert a report into a list that is already sorted by `created_at`
descending, keeping it behind strictly newer rows (stable on ties). -/
def insertByCreated (a : Report) : List Report → List Report
  | [] => [a]
  | b :: l => if a.createdAt < b.createdAt then b :: insertByCreated a l
              else a :: b :: l

/-- `ORDER BY r.created_at DESC` of the `user_report_history` view
(`src/unnamed/part_000` line 73), as a deterministic stable sort; the view
specifies no further sort key, so rows with equal `created_at` keep their
table order. -/
def sortByCreatedDesc : List Report → List Report
  | [] => []
  | a :: l => insertByCreated a (sortByCreatedDesc l)

/-- `LEFT JOIN analysis_sessions s ON r.session_id = s.id`: the (possibly
NULL-padded) session matches of one report row. -/
def sessionMatches (sessions : List AnalysisSession) (r : Report) :
    List (Option AnalysisSession) :=
  match sessions.filter (fun s => decide (s.id = r.sessionId)) with
  | [] => [none]
  | ss => ss.map some

/-- `LEFT JOIN analysis_results ar ON s.id = ar.session_id`: the (possibly
NULL-padded) result matches of one joined session. -/
def resultMatches (results : List AnalysisResult) :
    Option AnalysisSession → List (Option AnalysisResult)
  | none => [none]
  | some s =>
    match results.filter (fun ar => decide (ar.sessionId = s.id)) with
    | [] => [none]
    | ars => ars.map some

/-- One output row of the `user_report_history` view (`src/unnamed/part_000`
lines 55-73): the projected columns of the SELECT list.  The view selects no
byte column, so this row type has no `fileContent` field. -/
structure HistoryRow where
  reportId : String
  userId : String
  ticker : String
  companyName : String
  reportType : String
  filename : String
  fileSize : Nat
  createdAt : Nat
  expiresAt : Nat
  analysisStatus : Option String
  overallScore : Option Nat
  recommendationAction : Option String
  modelUsed : Option String
deriving DecidableEq, Repr

/-- The SELECT list of `user_report_history`: project a report row and its
LEFT-JOIN partners onto the view columns. -/
def rowOf (r : Report) (s : Option AnalysisSession)
    (ar : Option AnalysisResult) : HistoryRow :=
  { reportId := r.id, userId := r.userId, ticker := r.ticker,
    companyName := r.companyName, reportType := r.reportType,
    filename := r.filename, fileSize := r.fileSize,
    createdAt := r.createdAt, expiresAt := r.expiresAt,
    analysisStatus := s.map AnalysisSession.analysisStatus,
    overallScore := ar.map AnalysisResult.overallScore,
    recommendationAction := ar.map AnalysisResult.recommendationAction,
    modelUsed := ar.map AnalysisResult.modelUsed }

/-- All view rows produced by one report row (its LEFT JOIN expansions). -/
def rowsFor (db : ReportsDB) (r : Report) : List HistoryRow :=
  (sessionMatches db.sessions r).flatMap
    (fun s => (resultMatches db.results s).map (rowOf r s))

/-- The `user_report_history` view (`src/unnamed/part_000` lines 55-73):
LEFT JOINs projected on the SELECT list, `ORDER BY r.created_at DESC`. -/
def userReportHistory (db : ReportsDB) : List HistoryRow :=
  (sortByCreatedDesc db.reports).flatMap (rowsFor db)

/-- The ordering relation "newer or equally new comes first" on report rows. -/
def newestFirst (x y : Report) : Prop := y.createdAt ≤ x.createdAt

/-- The ordering relation "newer or equally new comes first" on view rows. -/
def rowNewestFirst (x y : HistoryRow) : Prop := y.createdAt ≤ x.createdAt

/-- JavaScript `s.toLowerCase()` at character level (the tickers and company
names are ASCII strings, where `Char.toLower` agrees with JS). -/
def lowerChars (s : String) : List Char := s.data.map Char.toLower

/-- JavaScript `s.includes(pat)`: contiguous-substring containment after the
`toLowerCase()` calls of `filteredReports`. -/
def strContainsLower (s pat : String) : Bool :=
  decide (List.IsInfix (lowerChars pat) (lowerChars s))

/-- The filter body of `filteredReports` (`src/frontend/app/reports/page.tsx`
lines 69-72): `report.ticker.toLowerCase().includes(searchTerm.toLowerCase())
|| report.company_name.toLowerCase().includes(searchTerm.toLowerCase())`. -/
def matchesSearch (searchTerm : String) (report : HistoryRow) : Bool :=
  strContainsLower report.ticker searchTerm ||
  strContainsLower report.companyName searchTerm

/-- `filteredReports` (`src/frontend/app/reports/page.tsx` lines 69-72). -/
def filteredReports (reports : List HistoryRow) (searchTerm : String) :
    List HistoryRow :=
  reports.filter (matchesSearch searchTerm)

/-- `toggleSelectAll` (`src/frontend/app/reports/page.tsx` lines 214-222):
if `selectedReports.size === filteredReports.length` clear the selection,
otherwise `setSelectedReports(new Set(filteredReports.map(r => r.report_id)))`.
The JS `Set` is modelled as a `Finset String`. -/
def toggleSelectAll (selected : Finset String) (reports : List HistoryRow)
    (searchTerm : String) : Finset String :=
  if selected.card = (filteredReports reports searchTerm).length then ∅
  else ((filteredReports reports searchTerm).map HistoryRow.reportId).toFinset

/-- Outcome of one `fetch(DELETE /reports/{id})` call inside
`deleteSelectedReports`: the response was ok, the response was not ok, or the
fetch promise rejected (a thrown exception). -/
inductive DeleteResponse where
  | okResp
  | errResp
  | exnResp
deriving DecidableEq, Repr

/-- The delete loop of `deleteSelectedReports`
(`src/frontend/app/reports/page.tsx` lines 224-264): iterate over the selected
ids; an ok response increments `deletedCount`, a non-ok response is logged and
the loop continues, and a thrown exception escapes to the surrounding catch so
the remaining ids are never attempted and no count is produced.  Returns the
list of ids whose delete was actually attempted together with
`some deletedCount` (loop completed) or `none` (exception). -/
def attemptDeletes (resp : String → DeleteResponse) :
    List String → List String × Option Nat
  | [] => ([], some 0)
  | i :: is =>
    match resp i with
    | .exnResp => ([i], none)
    | .okResp =>
      let rest := attemptDeletes resp is
      (i :: rest.1, rest.2.map (· + 1))
    | .errResp =>
      let rest := attemptDeletes resp is
      (i :: rest.1, rest.2)

/-- Externally visible outcome of a retrieval (view or download). -/
inductive RetrievalOutcome where
  | notAccessible
  | content (bytes : List Nat)
deriving DecidableEq, Repr

/-- Modelled from the spec: the backend retrieval handlers
(`/reports/{id}/view`, `/reports/{id}/download` in the FastAPI `main.py`) are
not under `src/`.  Per spec section 4.2 and section 7, a missing report id and
an ownership mismatch collapse into one externally visible "not accessible"
outcome; only `owner_id == requester_id` may read the bytes. -/
def retrieveReport (reports : List Report) (requesterId rid : String) :
    RetrievalOutcome :=
  match reports.find? (fun r => decide (r.id = rid)) with
  | none => .notAccessible
  | some r =>
    if r.userId = requesterId then .content r.fileContent else .notAccessible

/-- A stored artifact in the spec's data model (section 3): at most one of the
two representations may be absent. -/
structure GeneratedReport where
  ownerId : String
  renderedBytes : Option (List Nat)
  sourceBytes : Option (List Nat)
deriving DecidableEq, Repr

/-- The two representations of spec section 4.3. -/
inductive ReportRepresentation where
  | rendered
  | source
deriving DecidableEq, Repr

/-- Failure of the format resolution step. -/
inductive ResolveFailure where
  | representationUnavailable
deriving DecidableEq, Repr

/-- Modelled from the spec: the backend Format Resolver (the
`?format=pdf|latex` branch of the download handler in the FastAPI `main.py`)
is not under `src/`.  Per spec section 4.3, select the byte payload of the
requested representation; if it is absent, fail with
`RepresentationUnavailable` and never substitute the other payload. -/
def resolveRepresentation (r : GeneratedReport) (rep : ReportRepresentation) :
    Except ResolveFailure (List Nat) :=
  match rep with
  | .rendered =>
    match r.renderedBytes with
    | some b => .ok b
    | none => .error .representationUnavailable
  | .source =>
    match r.sourceBytes with
    | some b => .ok b
    | none => .error .representationUnavailable

/-- A report whose `expires_at` equals the cleanup timestamp exactly. -/
def boundaryReport : Report :=
  { id := "r0", userId := "u0", sessionId := "s0", ticker := "TSLA",
    companyName := "Tesla", reportType := "pdf", filename := "t.pdf",
    fileContent := [0], fileSize := 1, createdAt := 99, expiresAt := 100 }

/-- A store holding only `boundaryReport`. -/
def boundaryDb : ReportsDB :=
  { reports := [boundaryReport], sessions := [], results := [] }

/-- First of two reports sharing one `created_at`. -/
def tieReportA : Report :=
  { id := "a", userId := "u1", sessionId := "sA", ticker := "AAA",
    companyName := "Alpha", reportType := "pdf", filename := "a.pdf",
    fileContent := [1], fileSize := 1, createdAt := 50, expiresAt := 432050 }

/-- Second of two reports sharing one `created_at`. -/
def tieReportB : Report :=
  { id := "b", userId := "u1", sessionId := "sB", ticker := "BBB",
    companyName := "Beta", reportType := "pdf", filename := "b.pdf",
    fileContent := [2], fileSize := 1, createdAt := 50, expiresAt := 432050 }

/-- The tied pair stored in table order b-then-a. -/
def tieDbBA : ReportsDB :=
  { reports := [tieReportB, tieReportA], sessions := [], results := [] }

/-- The tied pair stored in table order a-then-b. -/
def tieDbAB : ReportsDB :=
  { reports := [tieReportA, tieReportB], sessions := [], results := [] }

/-- Response function where the delete of id "a" throws and every other
delete would succeed. -/
def respAborts : String → DeleteResponse :=
  fun i => if i = "a" then .exnResp else .okResp

/-- Response function where the delete of id "x" gets an error response and
every other delete succeeds; nothing throws. -/
def respErrOk : String → DeleteResponse :=
  fun i => if i = "x" then .errResp else .okResp

/-- A concrete report owned by user "alice". -/
def demoAliceReport : Report :=
  { id := "rep-alice", userId := "alice", sessionId := "sa",
    ticker := "MSFT", companyName := "Microsoft", reportType := "pdf",
    filename := "m.pdf", fileContent := [7, 7], fileSize := 2,
    createdAt := 10, expiresAt := 432010 }

/-- A concrete artifact holding only the rendered representation. -/
def demoGen : GeneratedReport :=
  { ownerId := "u", renderedBytes := some [37, 80, 68, 70],
    sourceBytes := none }

/-- A concrete report for exercising the history projection. -/
def demoReport9 : Report :=
  { id := "r9", userId := "u9", sessionId := "s9", ticker := "NVDA",
    companyName := "Nvidia", reportType := "pdf", filename := "n.pdf",
    fileContent := [9, 9, 9], fileSize := 3, createdAt := 42,
    expiresAt := 432042 }

/-- A store holding only `demoReport9`. -/
def demoDb9 : ReportsDB :=
  { reports := [demoReport9], sessions := [], results := [] }

/-- A concrete history row for exercising the select-all toggle. -/
def demoRow10 : HistoryRow :=
  { reportId := "row-ten", userId := "u10", ticker := "AAPL",
    companyName := "Apple", reportType := "pdf", filename := "a.pdf",
    fileSize := 5, createdAt := 1, expiresAt := 432001,
    analysisStatus := none, overallScore := none,
    recommendationAction := none, modelUsed := none }

/-- Inserting into the sort is a permutation of consing. -/
theorem perm_insertByCreated (a : Report) (l : List Report) :
    (insertByCreated a l).Perm (a :: l) := by
  induction l with
  | nil => simp [insertByCreated]
  | cons b t ih =>
    by_cases hc : a.createdAt < b.createdAt
    · simp only [insertByCreated, if_pos hc]
      exact (ih.cons b).trans (List.Perm.swap a b t)
    · simp [insertByCreated, if_neg hc]

/-- The view's sort is a permutation of the table. -/
theorem perm_sortByCreatedDesc (l : List Report) :
    (sortByCreatedDesc l).Perm l := by
  induction l with
  | nil => simp [sortByCreatedDesc]
  | cons a t ih =>
    exact (perm_insertByCreated a (sortByCreatedDesc t)).trans (ih.cons a)

/-- Membership is preserved by the view's sort. -/
theorem mem_sortByCreatedDesc {x : Report} {l : List Report} :
    x ∈ sortByCreatedDesc l ↔ x ∈ l :=
  (perm_sortByCreatedDesc l).mem_iff

/-- Inserting into a list sorted newest-first keeps it sorted. -/
theorem pairwise_insertByCreated (a : Report) (l : List Report)
    (h : l.Pairwise newestFirst) :
    (insertByCreated a l).Pairwise newestFirst := by
  induction l with
  | nil => simp [insertByCreated, newestFirst]
  | cons b t ih =>
    rcases List.pairwise_cons.mp h with ⟨hb, ht⟩
    by_cases hc : a.createdAt < b.createdAt
    · simp only [insertByCreated, if_pos hc]
      refine List.pairwise_cons.mpr ⟨?_, ih ht⟩
      intro y hy
      have hy' : y ∈ a :: t := (perm_insertByCreated a t).mem_iff.mp hy
      rcases List.mem_cons.mp hy' with rfl | hyt
      · exact Nat.le_of_lt hc
      · exact hb y hyt
    · simp only [insertByCreated, if_neg hc]
      have hba : b.createdAt ≤ a.createdAt := Nat.not_lt.mp hc
      refine List.pairwise_cons.mpr ⟨?_, h⟩
      intro y hy
      rcases List.mem_cons.mp hy with rfl | hyt
      · exact hba
      · exact Nat.le_trans (hb y hyt) hba

/-- The view's sort produces a newest-first list. -/
theorem pairwise_sortByCreatedDesc (l : List Report) :
    (sortByCreatedDesc l).Pairwise newestFirst := by
  induction l with
  | nil => simp [sortByCreatedDesc]
  | cons a t ih => exact pairwise_insertByCreated a (sortByCreatedDesc t) ih

/-- Every view row of a report is a projection of that report. -/
theorem rowsFor_shape {db : ReportsDB} {r : Report} {row : HistoryRow}
    (h : row ∈ rowsFor db r) :
    ∃ s ar, row = rowOf r s ar := by
  rcases List.mem_flatMap.mp h with ⟨s, _, hrow⟩
  rcases List.mem_map.mp hrow with ⟨ar, _, rfl⟩
  exact ⟨s, ar, rfl⟩

/-- Every view row of a report carries that report's `created_at`. -/
theorem createdAt_of_mem_rowsFor {db : ReportsDB} {r : Report}
    {row : HistoryRow} (h : row ∈ rowsFor db r) :
    row.createdAt = r.createdAt := by
  rcases rowsFor_shape h with ⟨s, ar, rfl⟩
  rfl

/-- Expanding a newest-first report list into view rows keeps the rows
newest-first. -/
theorem pairwise_flatMap_rowsFor (db : ReportsDB) :
    ∀ l : List Report, l.Pairwise newestFirst →
      (l.flatMap (rowsFor db)).Pairwise rowNewestFirst := by
  intro l
  induction l with
  | nil => simp
  | cons a t ih =>
    intro h
    rcases List.pairwise_cons.mp h with ⟨ha, ht⟩
    rw [List.flatMap_cons, List.pairwise_append]
    refine ⟨?_, ih ht, ?_⟩
    · refine List.pairwise_of_forall_mem_list ?_
      intro x hx y hy
      have hxc := createdAt_of_mem_rowsFor hx
      have hyc := createdAt_of_mem_rowsFor hy
      rw [rowNewestFirst, hxc, hyc]
    · intro x hx y hy
      have hxc := createdAt_of_mem_rowsFor hx
      rcases List.mem_flatMap.mp hy with ⟨b, hb, hyb⟩
      have hyc := createdAt_of_mem_rowsFor hyb
      rw [rowNewestFirst, hxc, hyc]
      exact ha b hb

/-- Both halves of a Boolean partition of a list account for its length. -/
theorem filter_length_partition {α : Type} (p : α → Bool) (l : List α) :
    (l.filter p).length + (l.filter (fun a => !p a)).length = l.length := by
  induction l with
  | nil => rfl
  | cons a t ih =>
    by_cases hp : p a <;> simp [List.filter, hp] <;> omega

/-- In a table with pairwise distinct ids, looking a member's id up finds
exactly that member. -/
theorem find_report_of_mem (l : List Report) (r : Report)
    (hnd : (l.map Report.id).Nodup) (hm : r ∈ l) :
    l.find? (fun x => decide (x.id = r.id)) = some r := by
  induction l with
  | nil => cases hm
  | cons a t ih =>
    rcases List.mem_cons.mp hm with rfl | hmt
    · simp [List.find?]
    · have hnd' : (t.map Report.id).Nodup := (List.nodup_cons.mp hnd).2
      have hne : ¬ a.id = r.id := by
        intro he
        have hin : r.id ∈ t.map Report.id := List.mem_map.mpr ⟨r, hmt, rfl⟩
        exact (List.nodup_cons.mp hnd).1 (he ▸ hin)
      simp [List.find?, hne, ih hnd' hmt]

/-- C1: for every report owned by user u1 and every distinct user u2, a
retrieval of that report authenticated as u2 produces exactly the same
externally visible outcome as a retrieval of a report id that does not exist
at all; both are the single "not accessible" outcome, so Forbidden and
NotFound are indistinguishable at the protocol boundary. -/
theorem cross_user_retrieval_indistinguishable
    (reports : List Report) (r : Report) (u1 u2 missingId : String)
    (hnd : (reports.map Report.id).Nodup) (hm : r ∈ reports)
    (hown : r.userId = u1) (hne : u1 ≠ u2)
    (hmiss : ∀ x ∈ reports, x.id ≠ missingId) :
    retrieveReport reports u2 r.id = retrieveReport reports u2 missingId ∧
    retrieveReport reports u2 r.id = RetrievalOutcome.notAccessible := by
  have h1 : retrieveReport reports u2 r.id = RetrievalOutcome.notAccessible := by
    unfold retrieveReport
    rw [find_report_of_mem reports r hnd hm]
    have hu : ¬ r.userId = u2 := by rw [hown]; exact hne
    simp [hu]
  have h2 : retrieveReport reports u2 missingId =
      RetrievalOutcome.notAccessible := by
    unfold retrieveReport
    have hnone : reports.find? (fun x => decide (x.id = missingId)) = none := by
      refine List.find?_eq_none.mpr ?_
      intro x hx
      simpa using hmiss x hx
    rw [hnone]
  exact ⟨h1.trans h2.symm, h1⟩

/-- Witness for C1 at a concrete store: user "bob" retrieving "alice"'s
report gets the same outcome as retrieving the absent id "nope". -/
theorem cross_user_retrieval_indistinguishable_witness :
    retrieveReport [demoAliceReport] "bob" demoAliceReport.id =
      retrieveReport [demoAliceReport] "bob" "nope" ∧
    retrieveReport [demoAliceReport] "bob" demoAliceReport.id =
      RetrievalOutcome.notAccessible :=
  cross_user_retrieval_indistinguishable [demoAliceReport] demoAliceReport
    "alice" "bob" "nope" (by decide) (by decide) rfl (by decide) (by decide)

/-- Counterexample to C2 as stated: a report whose `expires_at` equals the
cleanup timestamp exactly is NOT deleted by `cleanup_expired_reports`, whose
WHERE clause is the strict `expires_at < CURRENT_TIMESTAMP`; the claim's
`expires_at <= now` boundary case survives and the returned count is 0. -/
theorem cleanup_boundary_counterexample :
    boundaryReport.expiresAt ≤ 100 ∧
    (cleanupExpiredReports 100 boundaryDb).1 = 0 ∧
    boundaryReport ∈ (cleanupExpiredReports 100 boundaryDb).2.reports := by
  decide

/-- C2 amended: for every store state and timestamp `now`,
`cleanup_expired_reports` deletes exactly the set of reports whose
`expires_at < now` (strictly earlier; a report with `expires_at = now`
survives) and no other report, and returns the count of reports deleted. -/
theorem cleanup_deletes_exactly_strict (now : Nat) (db : ReportsDB) :
    (∀ r : Report, r ∈ (cleanupExpiredReports now db).2.reports ↔
      r ∈ db.reports ∧ ¬ r.expiresAt < now) ∧
    (cleanupExpiredReports now db).1 =
      (db.reports.filter (fun r => decide (r.expiresAt < now))).length ∧
    (cleanupExpiredReports now db).1 +
      (cleanupExpiredReports now db).2.reports.length = db.reports.length := by
  have hpart := filter_length_partition
    (fun r : Report => decide (r.expiresAt < now)) db.reports
  have hle : (db.reports.filter
      (fun r => !decide (r.expiresAt < now))).length ≤ db.reports.length :=
    List.length_filter_le _ _
  refine ⟨?_, ?_, ?_⟩
  · intro r
    simp [cleanupExpiredReports, List.mem_filter]
  · simp only [cleanupExpiredReports]
    omega
  · simp only [cleanupExpiredReports]
    omega

/-- C3: at creation time `expires_at` equals `created_at` plus the fixed
5-day retention window, hence `expires_at` is strictly after `created_at`;
and the read path (the `user_report_history` projection — reads are pure
functions of the store) reports `expires_at` unchanged. -/
theorem creation_expiry_invariant (now : Nat)
    (rid uid sid tk cn rt fn : String) (content : List Nat) :
    (createReport now rid uid sid tk cn rt fn content).expiresAt =
      (createReport now rid uid sid tk cn rt fn content).createdAt +
        retentionWindowSecs ∧
    (createReport now rid uid sid tk cn rt fn content).createdAt <
      (createReport now rid uid sid tk cn rt fn content).expiresAt ∧
    (∀ (s : Option AnalysisSession) (ar : Option AnalysisResult),
      (rowOf (createReport now rid uid sid tk cn rt fn content) s ar).expiresAt
        = (createReport now rid uid sid tk cn rt fn content).expiresAt) := by
  refine ⟨rfl, ?_, fun s ar => rfl⟩
  show now < now + retentionWindowSecs
  have : 0 < retentionWindowSecs := by decide
  omega

/-- C8: running the reclamation twice in a row with the same timestamp and no
new reports in between yields a second-run deleted count of 0; reclamation is
idempotent. -/
theorem cleanup_reclaim_idempotent (now : Nat) (db : ReportsDB) :
    (cleanupExpiredReports now (cleanupExpiredReports now db).2).1 = 0 := by
  simp [cleanupExpiredReports, List.filter_filter, Bool.and_self]

/-- Counterexample to C4 as stated: the `user_report_history` view orders by
`created_at DESC` only, with no `report_id` tiebreak; two reports sharing one
`created_at` come out in whatever order the table holds them ("b" before "a"
for one table order, "a" before "b" for the other), so equal-`created_at`
rows are not ordered by `report_id` ascending and the tie order is not
deterministic. -/
theorem history_tie_order_counterexample :
    (userReportHistory tieDbBA).map HistoryRow.reportId = ["b", "a"] ∧
    (userReportHistory tieDbAB).map HistoryRow.reportId = ["a", "b"] ∧
    tieReportA.createdAt = tieReportB.createdAt ∧
    tieReportA.id ≠ tieReportB.id := by
  decide

/-- C4 amended: every listing is ordered newest `created_at` first; the code
applies no `report_id` tiebreak, so reports with equal `created_at` keep
their underlying table order (the sort is a permutation of the table). -/
theorem history_sorted_newest_first (db : ReportsDB) :
    (userReportHistory db).Pairwise rowNewestFirst ∧
    (sortByCreatedDesc db.reports).Perm db.reports :=
  ⟨pairwise_flatMap_rowsFor db (sortByCreatedDesc db.reports)
      (pairwise_sortByCreatedDesc db.reports),
    perm_sortByCreatedDesc db.reports⟩

/-- Counterexample to C5 as stated: in `deleteSelectedReports` the whole
delete loop sits inside one try/catch, so a delete whose fetch throws (id
"a") aborts the loop — the remaining selected report "b", whose delete would
have succeeded, is never attempted and no count is reported (the catch shows
a generic failure message). -/
theorem bulk_delete_exception_counterexample :
    attemptDeletes respAborts ["a", "b"] = (["a"], none) ∧
    "b" ∉ (attemptDeletes respAborts ["a", "b"]).1 ∧
    respAborts "b" = DeleteResponse.okResp := by
  decide

/-- C5 amended: as long as no individual delete throws, an error response to
one report's delete does not abort the deletes of the remaining reports —
every selected id is attempted — and the count reported on completion equals
exactly the number of individual deletes that succeeded; a delete whose fetch
throws aborts the remaining deletes with no count reported. -/
theorem bulk_delete_error_resilient (resp : String → DeleteResponse)
    (ids : List String) (hnoexn : ∀ i ∈ ids, resp i ≠ DeleteResponse.exnResp) :
    (attemptDeletes resp ids).1 = ids ∧
    (attemptDeletes resp ids).2 = some
      ((ids.filter (fun i => decide (resp i = DeleteResponse.okResp))).length) := by
  induction ids with
  | nil => simp [attemptDeletes]
  | cons i is ih =>
    have hi := hnoexn i (List.mem_cons_self i is)
    have his : ∀ j ∈ is, resp j ≠ DeleteResponse.exnResp :=
      fun j hj => hnoexn j (List.mem_cons_of_mem i hj)
    rcases ih his with ⟨hatt, hcnt⟩
    cases hr : resp i with
    | exnResp => exact absurd hr hi
    | okResp =>
      simp [attemptDeletes, hr, hatt, hcnt, List.filter_cons]
    | errResp =>
      simp [attemptDeletes, hr, hatt, hcnt, List.filter_cons]

/-- Witness for C5's amended theorem at a concrete run: id "x" gets an error
response, id "y" succeeds; both are attempted and the count is the number of
successes. -/
theorem bulk_delete_error_resilient_witness :
    (attemptDeletes respErrOk ["x", "y"]).1 = ["x", "y"] ∧
    (attemptDeletes respErrOk ["x", "y"]).2 = some
      ((["x", "y"].filter
        (fun i => decide (respErrOk i = DeleteResponse.okResp))).length) :=
  bulk_delete_error_resilient respErrOk ["x", "y"] (by decide)

/-- C6: a retrieval request for a representation the report does not hold
fails with `RepresentationUnavailable`, and a successful retrieval only ever
returns the bytes stored for the requested representation — the other
representation's bytes are never substituted. -/
theorem resolve_representation_strict (r : GeneratedReport) :
    (r.sourceBytes = none →
      resolveRepresentation r ReportRepresentation.source =
        Except.error ResolveFailure.representationUnavailable) ∧
    (r.renderedBytes = none →
      resolveRepresentation r ReportRepresentation.rendered =
        Except.error ResolveFailure.representationUnavailable) ∧
    (∀ b, resolveRepresentation r ReportRepresentation.source = Except.ok b →
      r.sourceBytes = some b) ∧
    (∀ b, resolveRepresentation r ReportRepresentation.rendered = Except.ok b →
      r.renderedBytes = some b) := by
  refine ⟨?_, ?_, ?_, ?_⟩
  · intro h
    simp [resolveRepresentation, h]
  · intro h
    simp [resolveRepresentation, h]
  · intro b h
    cases hs : r.sourceBytes with
    | none => simp [resolveRepresentation, hs] at h
    | some c =>
      simp [resolveRepresentation, hs] at h
      rw [h]
  · intro b h
    cases hs : r.renderedBytes with
    | none => simp [resolveRepresentation, hs] at h
    | some c =>
      simp [resolveRepresentation, hs] at h
      rw [h]

/-- Witness for C6 at a concrete report holding only rendered bytes: asking
for the source representation fails with `RepresentationUnavailable`. -/
theorem resolve_representation_strict_witness :
    resolveRepresentation demoGen ReportRepresentation.source =
      Except.error ResolveFailure.representationUnavailable :=
  (resolve_representation_strict demoGen).1 rfl

/-- C7: a report appears in the filtered listing iff the lowercased search
term is a contiguous substring of the lowercased ticker or of the lowercased
company name; the empty search term keeps every report. -/
theorem filtered_reports_characterization (reports : List HistoryRow)
    (searchTerm : String) :
    (∀ r : HistoryRow, r ∈ filteredReports reports searchTerm ↔
      r ∈ reports ∧
        (List.IsInfix (lowerChars searchTerm) (lowerChars r.ticker) ∨
         List.IsInfix (lowerChars searchTerm) (lowerChars r.companyName))) ∧
    filteredReports reports "" = reports := by
  constructor
  · intro r
    simp [filteredReports, matchesSearch, strContainsLower, List.mem_filter,
      Bool.or_eq_true, decide_eq_true_eq]
  · have h0 : lowerChars "" = [] := rfl
    refine List.filter_eq_self.mpr ?_
    intro a _
    simp [matchesSearch, strContainsLower, h0, List.nil_infix]

/-- C9: every item of the history listing is a pure metadata projection of a
stored report — it carries the report's metadata fields including
`expires_at` — and the projection is independent of the byte payload
(`file_content` is not selected by the view), so listing never exposes
bytes. -/
theorem history_metadata_projection :
    (∀ (db : ReportsDB) (row : HistoryRow), row ∈ userReportHistory db →
      ∃ r ∈ db.reports, row.reportId = r.id ∧ row.userId = r.userId ∧
        row.ticker = r.ticker ∧ row.companyName = r.companyName ∧
        row.reportType = r.reportType ∧ row.filename = r.filename ∧
        row.fileSize = r.fileSize ∧ row.createdAt = r.createdAt ∧
        row.expiresAt = r.expiresAt) ∧
    (∀ (r : Report) (s : Option AnalysisSession) (ar : Option AnalysisResult)
      (b : List Nat), rowOf { r with fileContent := b } s ar = rowOf r s ar) := by
  constructor
  · intro db row hrow
    simp only [userReportHistory] at hrow
    rcases List.mem_flatMap.mp hrow with ⟨r, hr, hrow2⟩
    have hrl : r ∈ db.reports := mem_sortByCreatedDesc.mp hr
    rcases rowsFor_shape hrow2 with ⟨s, ar, rfl⟩
    exact ⟨r, hrl, rfl, rfl, rfl, rfl, rfl, rfl, rfl, rfl, rfl⟩
  · intro r s ar b
    rfl

/-- Witness for C9 at a concrete store: the single history row of `demoDb9`
projects the metadata of `demoReport9`, `expires_at` included. -/
theorem history_metadata_projection_witness :
    ∃ r ∈ demoDb9.reports,
      (rowOf demoReport9 none none).reportId = r.id ∧
      (rowOf demoReport9 none none).userId = r.userId ∧
      (rowOf demoReport9 none none).ticker = r.ticker ∧
      (rowOf demoReport9 none none).companyName = r.companyName ∧
      (rowOf demoReport9 none none).reportType = r.reportType ∧
      (rowOf demoReport9 none none).filename = r.filename ∧
      (rowOf demoReport9 none none).fileSize = r.fileSize ∧
      (rowOf demoReport9 none none).createdAt = r.createdAt ∧
      (rowOf demoReport9 none none).expiresAt = r.expiresAt :=
  history_metadata_projection.1 demoDb9 (rowOf demoReport9 none none)
    (by decide)

/-- C10: toggling Select All clears the selection exactly when the current
selection's size equals the number of reports matching the active search
filter, and otherwise replaces the selection with exactly the report ids of
the currently filtered reports; every id in the resulting selection belongs
to a filtered report, so Delete Selected right after Select All targets only
filtered reports. -/
theorem toggle_select_all_spec (sel : Finset String)
    (reports : List HistoryRow) (searchTerm : String) :
    (sel.card = (filteredReports reports searchTerm).length →
      toggleSelectAll sel reports searchTerm = ∅) ∧
    (sel.card ≠ (filteredReports reports searchTerm).length →
      toggleSelectAll sel reports searchTerm =
        ((filteredReports reports searchTerm).map HistoryRow.reportId).toFinset) ∧
    (∀ x ∈ toggleSelectAll sel reports searchTerm,
      ∃ r ∈ filteredReports reports searchTerm, x = r.reportId) := by
  refine ⟨?_, ?_, ?_⟩
  · intro h
    simp [toggleSelectAll, h]
  · intro h
    simp [toggleSelectAll, h]
  · intro x hx
    by_cases h : sel.card = (filteredReports reports searchTerm).length
    · simp [toggleSelectAll, h] at hx
    · simp only [toggleSelectAll, if_neg h] at hx
      rcases List.mem_map.mp (List.mem_toFinset.mp hx) with ⟨r, hr, heq⟩
      exact ⟨r, hr, heq.symm⟩

/-- Witness for C10 at a concrete page state: with an empty selection and one
(unfiltered) report, toggling selects exactly that report's id. -/
theorem toggle_select_all_spec_witness :
    toggleSelectAll ∅ [demoRow10] "" =
      ((filteredReports [demoRow10] "").map HistoryRow.reportId).toFinset :=
  (toggle_select_all_spec ∅ [demoRow10] "").2.1 (by decide)
